import Mathlib

/-!
Shallow embedding of the core numeric routines of the py-NnK seismic
source-scanning library (files `NnK/scanner.py` and `NnK/source.py`),
together with proofs checking the natural-language specification's
claims against the embedded code.

Conventions of the embedding:
* machine floats are idealised as exact rationals (`ℚ`) where the code
  is purely arithmetic, and as real numbers (`ℝ`) where it uses
  transcendental functions (`np.sin`, `np.arccos`, `np.sqrt`, ...);
* `np.sign` is embedded as `qsign` (value in {-1, 0, 1});
* IEEE special values produced by division are modelled explicitly by
  the type `FVal` (finite value, +inf, -inf, NaN);
* numpy arrays are embedded as tuples (3-vectors), lists, or functions
  out of `Fin n` when rectangular shape matters.
-/

open Real

/-- A cartesian or spherical 3-vector, written `(v0, v1, v2)`;
mirrors a numpy array of shape `(3, ...)` at a single sample point. -/
def Vec3 (K : Type) := K × K × K

/-- Embedding of `np.sign`: -1 for negatives, 1 for positives, 0 at zero. -/
def qsign {K : Type} [LinearOrderedField K] (x : K) : K :=
  if x < 0 then -1 else if 0 < x then 1 else 0

/-- Dot product `a[0]*b[0] + a[1]*b[1] + a[2]*b[2]` as written in
`project_vectors` (scanner.py line 290). -/
def dot {K : Type} [LinearOrderedField K] (a b : Vec3 K) : K :=
  a.1 * b.1 + a.2.1 * b.2.1 + a.2.2 * b.2.2

/-- Squared euclidean norm `a[0]**2 + a[1]**2 + a[2]**2`. -/
def normSq {K : Type} [LinearOrderedField K] (a : Vec3 K) : K :=
  a.1 ^ 2 + a.2.1 ^ 2 + a.2.2 ^ 2

/-- Scalar times vector, coordinatewise (numpy broadcasting `c * a`). -/
def smul3 {K : Type} [LinearOrderedField K] (c : K) (a : Vec3 K) : Vec3 K :=
  (c * a.1, c * a.2.1, c * a.2.2)

/-- Embedding of `project_vectors(b, a)` (scanner.py lines 264-296):
`proj_norm = (a.b) / (a.a + 1e-10)` and the result is `proj_norm * a`.
The `1e-10` guard term of the source is kept exactly. -/
def project_vectors {K : Type} [LinearOrderedField K] (b a : Vec3 K) : Vec3 K :=
  smul3 (dot a b / (normSq a + 1 / 10000000000)) a

/-- Embedding of `atan2(y, x)` (`np.arctan2`), via the complex argument:
`atan2 y x = arg (x + y i)`, with range `(-π, π]`. -/
noncomputable def atan2 (y x : ℝ) : ℝ := Complex.arg (↑x + ↑y * Complex.I)

/-- Embedding of `cartesian_to_spherical(vector)` (scanner.py lines 179-221):
returns `[azimuth, polar angle, radius]` where `radius = sqrt(x²+y²+z²)`,
`takeoff = arccos(z/radius)` overwritten with `π/2 * sign(z)` where
`radius == 0`, and `azimuth = arctan2(y, x)`. -/
noncomputable def cartesian_to_spherical (v : Vec3 ℝ) : Vec3 ℝ :=
  let radius := Real.sqrt (v.1 ^ 2 + v.2.1 ^ 2 + v.2.2 ^ 2)
  (atan2 v.2.1 v.1,
   if radius = 0 then Real.pi / 2 * qsign v.2.2 else Real.arccos (v.2.2 / radius),
   radius)

/-- Embedding of `spherical_to_cartesian(vector)` (scanner.py lines 224-261)
for a 3-component input `[azimuth, takeoff, radius]`:
`x = radius*sin(takeoff)*cos(azimuth)`, `y = radius*sin(takeoff)*sin(azimuth)`,
`z = radius*cos(takeoff)`. -/
noncomputable def spherical_to_cartesian (v : Vec3 ℝ) : Vec3 ℝ :=
  (v.2.2 * Real.sin v.2.1 * Real.cos v.1,
   v.2.2 * Real.sin v.2.1 * Real.sin v.1,
   v.2.2 * Real.cos v.2.1)

/-- The component kinds accepted by `vector_normal` (scanner.py lines 299-356):
`Q` meridian ('Q'/'m'/'meridian'/...), `T` horizontal ('T'/'h'/...),
`v` vertical ('v'/'vertical'), `L` radial ('L'/'r'/'radial'/'self'). -/
inductive CompKind where
  | Q : CompKind
  | T : CompKind
  | v : CompKind
  | L : CompKind

/-- Embedding of `vector_normal(XYZ, v_or_h)` (scanner.py lines 299-356):
converts to spherical coordinates `ATR`, shifts the angles according to the
requested kind exactly as in the source (including the redundant
`ATR[1] + (π/2 - ATR[1])` and `ATR[1] - ATR[1]` forms), and converts back;
the radial kind returns the input unchanged. -/
noncomputable def vector_normal (XYZ : Vec3 ℝ) (k : CompKind) : Vec3 ℝ :=
  let ATR := cartesian_to_spherical XYZ
  match k with
  | CompKind.Q => spherical_to_cartesian (ATR.1, ATR.2.1 - Real.pi / 2, ATR.2.2)
  | CompKind.T =>
      spherical_to_cartesian
        (ATR.1 - Real.pi / 2, ATR.2.1 + (Real.pi / 2 - ATR.2.1), ATR.2.2)
  | CompKind.v => spherical_to_cartesian (ATR.1, ATR.2.1 - ATR.2.1, ATR.2.2)
  | CompKind.L => XYZ

/-- Direction used by `disp_component(xyz, disp, comp)` (scanner.py lines
474-481): the displacement itself when `comp` is `None`, otherwise
`vector_normal(xyz, comp)`. -/
noncomputable def amplitude_direction (xyz disp : Vec3 ℝ) (comp : Option CompKind) :
    Vec3 ℝ :=
  match comp with
  | none => disp
  | some k => vector_normal xyz k

/-- Embedding of the signed amplitude returned by `disp_component`
(scanner.py lines 474-488): the euclidean norm of
`project_vectors(disp, amplitude_direction)` multiplied by
`sign(sum(disp * amplitude_direction) + 0.00001)`. -/
noncomputable def disp_component_amp (xyz disp : Vec3 ℝ) (comp : Option CompKind) :
    ℝ :=
  let a := amplitude_direction xyz disp comp
  Real.sqrt (normSq (project_vectors disp a)) * qsign (dot disp a + 1 / 100000)

/-- Embedding of `haversine(lon1, lat1, lon2, lat2, radius)`
(scanner.py lines 31-81, scalar case, latitudes given directly):
`a = sin²(dlat/2) + cos(lat1)cos(lat2)sin²(dlon/2)`,
`c = 2 arcsin(sqrt a)`, result `radius * c`. -/
noncomputable def haversine (lon1 lat1 lon2 lat2 radius : ℝ) : ℝ :=
  let dlon := lon2 - lon1
  let dlat := lat2 - lat1
  let a := Real.sin (dlat / 2) ^ 2 +
    Real.cos lat1 * Real.cos lat2 * Real.sin (dlon / 2) ^ 2
  radius * (2 * Real.arcsin (Real.sqrt a))

/-- Embedding of the `phi1`/`phi2` entry of `haversine` (scanner.py lines
58-61): polar angles replace the latitudes via `lat = π/2 - phi`. -/
noncomputable def haversine_phi (lon1 phi1 lon2 phi2 radius : ℝ) : ℝ :=
  haversine lon1 (Real.pi / 2 - phi1) lon2 (Real.pi / 2 - phi2) radius

/-- Inputs accepted by `mt_angles` (scanner.py lines 391-471), tagged by the
shape the source sniffs: a `(3,)` strike/dip/rake triple, a `(2,3)` pair of
equivalent triples, or a `(4,)` triple with deviatoric percentage.  The
`(6,)` and `(3,3)` shapes are routed through the external MoPad moment-tensor
decomposition collaborator (out of the embedded core, see spec section 1). -/
inductive MtInput (K : Type) where
  | sdr : K → K → K → MtInput K
  | sdrPair : K × K × K → K × K × K → MtInput K
  | sdrDevi : K → K → K → K → MtInput K

/-- Embedding of `mt_angles(mt)` (scanner.py lines 413-471) on the shapes it
handles without the external decomposition collaborator.  Returns
`((strike, dip, rake), (DC, CLVD, iso, deviatoric))`; the NaN placeholders of
the `(4,)` branch are modelled by `none`. -/
def mt_angles {K : Type} [LinearOrderedField K] (mt : MtInput K) :
    (K × K × K) × (Option K × Option K × K × K) :=
  match mt with
  | MtInput.sdr strike dip rake => ((strike, dip, rake), (some 100, some 0, 0, 100))
  | MtInput.sdrPair a b =>
      (if |a.1| < |b.1| then a else b, (some 100, some 0, 0, 100))
  | MtInput.sdrDevi strike dip rake devi =>
      ((strike, dip, rake), (none, none, 0, devi))

/-- The branch of `Vavryeuk.radpat` selected by a wave-type string
(scanner.py lines 1218-1256): one constructor per `elif` arm, and
`printOnly` for the final `else` arm, which only executes
`print 'Can t yet compute this wave type.'` and falls through with the
amplitude variable `G` left unbound. -/
inductive VavWaveCase where
  | P : VavWaveCase
  | SH : VavWaveCase
  | SV : VavWaveCase
  | S : VavWaveCase
  | SoverP : VavWaveCase
  | PoverS : VavWaveCase
  | SHoverP : VavWaveCase
  | SVoverP : VavWaveCase
  | SHoverS : VavWaveCase
  | SVoverS : VavWaveCase
  | printOnly : VavWaveCase
  deriving DecidableEq

/-- Embedding of the wave-type string dispatch of `Vavryeuk.radpat`
(scanner.py lines 1218-1256; identical in source.py lines 1123-1161), with
exactly the synonym tuples of the source. -/
def vavryeuk_radpat_case (wave : String) : VavWaveCase :=
  if wave ∈ ["P", "P-wave", "P wave"] then VavWaveCase.P
  else if wave ∈ ["ST", "St", "SH", "Sh", "Sh-wave", "Sh wave", "SH-wave", "SH wave"] then
    VavWaveCase.SH
  else if wave ∈ ["SV", "Sv", "Sv-wave", "Sv wave", "SV-wave", "SV wave"] then
    VavWaveCase.SV
  else if wave ∈ ["S", "S-wave", "S wave"] then VavWaveCase.S
  else if wave ∈ ["S/P", "s/p"] then VavWaveCase.SoverP
  else if wave ∈ ["P/S", "p/s"] then VavWaveCase.PoverS
  else if wave ∈ ["SH/P", "sh/p"] then VavWaveCase.SHoverP
  else if wave ∈ ["SV/P", "sv/p"] then VavWaveCase.SVoverP
  else if wave ∈ ["SH/S", "sh/s"] then VavWaveCase.SHoverS
  else if wave ∈ ["SV/S", "sv/s"] then VavWaveCase.SVoverS
  else VavWaveCase.printOnly

/-- IEEE-style value produced by a floating division: a finite value,
a signed infinity, or NaN. -/
inductive FVal (K : Type) where
  | val : K → FVal K
  | posInf : FVal K
  | negInf : FVal K
  | nan : FVal K
  deriving DecidableEq

/-- Floating division `a / b` with IEEE semantics on a zero denominator:
`0/0` is NaN and `a/0` with `a ≠ 0` is a signed infinity. -/
def fdiv {K : Type} [LinearOrderedField K] (a b : K) : FVal K :=
  if b = 0 then
    if a = 0 then FVal.nan else if 0 < a then FVal.posInf else FVal.negInf
  else FVal.val (a / b)

/-- Weight clamping applied to the repeated `P(Mt|d)` field before the
centroid average (scanner.py lines 2184-2188): negative entries are zeroed,
then entries below the threshold `lim` are zeroed. -/
def clampWeights {K : Type} [LinearOrderedField K] (w : List K) (lim : K) : List K :=
  (w.map (fun x => if x < 0 then 0 else x)).map (fun x => if x < lim then 0 else x)

/-- One component of the raw weighted-average centroid (scanner.py line 2190):
`nansum(weights * fullMt) / nansum(weights)` with IEEE division semantics;
`m` is the column of `fullMt` values for this component and `lim` the
threshold `mean + centroid_factor * std` computed at line 2187. -/
def centroidRaw {K : Type} [LinearOrderedField K] (w : List K) (lim : K) (m : List K) :
    FVal K :=
  let cw := clampWeights w lim
  fdiv (((cw.zip m).map fun p => p.1 * p.2).sum) cw.sum

/-- The NaN replacement of scanner.py line 2192:
`centroid[0][np.isnan(centroid[0])] = 0.00000000001`. -/
def fixnan {K : Type} [LinearOrderedField K] (x : FVal K) : FVal K :=
  match x with
  | FVal.nan => FVal.val (1 / 100000000000)
  | y => y

/-- One component of the centroid moment tensor as stored by `scan()`
(scanner.py lines 2190-2192): the raw weighted average with NaN replaced by
the small positive epsilon `1e-11`. -/
def centroidComp {K : Type} [LinearOrderedField K] (w : List K) (lim : K) (m : List K) :
    FVal K :=
  fixnan (centroidRaw w lim m)

/-- Largest element of a list (`np.nanmax` on NaN-free data); 0 on the
empty list, on which numpy would return NaN. -/
def maxList {K : Type} [LinearOrderedField K] : List K → K
  | [] => 0
  | h :: t => t.foldl max h

/-- Smallest element of a list (`np.nanmin` on NaN-free data); 0 on the
empty list. -/
def minList {K : Type} [LinearOrderedField K] : List K → K
  | [] => 0
  | h :: t => t.foldl min h

/-- Embedding of the `P(d)` computation of `scan()` (scanner.py lines
2147, 2164, 2165): `np.nansum(np.abs(rms) >= np.nanmax(rms)) * .5 / len(rms)`,
then clamped below by `np.nanmin(P(Mt))` and above by `np.nanmax(P(d|Mt))`. -/
def P_of_d {K : Type} [LinearOrderedField K] (rms pMt pdMt : List K) : K :=
  let pre : K :=
    (rms.countP fun r => decide (maxList rms ≤ |r|)) * (1 / 2) / (rms.length : K)
  min (max pre (minList pMt)) (maxList pdMt)

/-- The `P(d)` formula as the specification claims it: the plain fraction of
mechanisms whose `|rms|` meets-or-exceeds the maximum rms (no factor ½),
clamped below by `min P(Mt)` and above by `max P(d|Mt)`.  Stated from the
claim's words, to be compared against `P_of_d` from the source. -/
def P_of_d_claimed {K : Type} [LinearOrderedField K] (rms pMt pdMt : List K) : K :=
  let frac : K :=
    ((rms.filter fun r => decide (maxList rms ≤ |r|)).length : K) / (rms.length : K)
  min (max frac (minList pMt)) (maxList pdMt)

/-- The `P(d)` formula amended to match the source: half the fraction of
mechanisms whose `|rms|` meets-or-exceeds the maximum rms, with the same
clamping.  Differs from the source expression only in computing
`(1/2) * (count / N)` instead of `count * .5 / N`. -/
def P_of_d_amended {K : Type} [LinearOrderedField K] (rms pMt pdMt : List K) : K :=
  let halfFrac : K :=
    (1 / 2) * (((rms.filter fun r => decide (maxList rms ≤ |r|)).length : K) /
      (rms.length : K))
  min (max halfFrac (minList pMt)) (maxList pdMt)

/-- One cell of the mechanism grid built by `SourceScan.__init__`
(scanner.py lines 1940-2007): the strike/dip/rake triple `Mt`, the full
6-component tensor `fullMt`, and the spherical P-axis and T-axis. -/
structure Mech where
  Mt : ℝ × ℝ × ℝ
  fullMt : Fin 6 → ℝ
  Paxis : ℝ × ℝ × ℝ
  Taxis : ℝ × ℝ × ℝ

/-- The `SourceScan` object state: the grid fields written once at
construction (`grid`, `PMt`, `modeled`, mirroring `source_mechanisms['Mt'`,
`'fullMt'`, `'P-axis'`, `'T-axis'`, `'P(Mt)']` and `modeled_amplitudes`),
and the per-scan result fields written by `scan()` (`rms`, `xcorr`,
`PdMt` = `P(d|Mt)`, `Pd` = `P(d)`, `PMtd` = `P(Mt|d)`, `best` =
`best_likelyhood`, `centroid`, `scanned`, and the bound data shape). -/
structure ScanState where
  grid : List Mech
  PMt : List ℝ
  modeled : (ℝ × ℝ × ℝ) → String → String → Nat → ℝ
  rms : List ℝ
  xcorr : List ℝ
  PdMt : List ℝ
  Pd : ℝ
  PMtd : List ℝ
  best : (ℝ × ℝ × ℝ) × ℝ
  centroid : List (FVal ℝ)
  scanned : Bool
  boundData : Option (Nat × Nat)

/-- The observed dataset bound by `scan()` via `_data_init` (scanner.py
lines 2018-2093): `n` unit-peak wavelets of `L` samples with their taper
windows, the nearest-grid-point observation index, wave-type tag and
channel (component) tag of each wavelet, plus the theoretical optimal
stack and its power retained as normalization denominator. -/
structure ScanData (n L : Nat) where
  wavelets : Fin n → Fin L → ℝ
  tapers : Fin n → Fin L → ℝ
  indexes : Fin n → Nat
  types : Fin n → String
  channels : Fin n → String
  optStack : Fin L → ℝ
  powerSynth : ℝ

/-- The `data_amplitudes` array filled at scanner.py line 2127: for each
wavelet `j` every sample is overwritten with the modeled amplitude bound to
wavelet `j`, broadcasting the scalar across the time axis. -/
def data_amplitudes {K : Type} [LinearOrderedField K] {n L : Nat}
    (amps : Fin n → K) : Fin n → Fin L → K :=
  fun j _ => amps j

/-- The `corrected_wavelets` array of scanner.py line 2131:
`np.sign(data_amplitudes) * data_wavelets * data_taperwindows`. -/
def corrected_wavelets {K : Type} [LinearOrderedField K] {n L : Nat}
    (ws ts : Fin n → Fin L → K) (amps : Fin n → K) : Fin n → Fin L → K :=
  fun j t => qsign (data_amplitudes amps j t) * ws j t * ts j t

/-- The `stack_wavelets` array of scanner.py line 2132:
`np.nansum(corrected_wavelets, axis=0)`. -/
def stack_wavelets {K : Type} [LinearOrderedField K] {n L : Nat}
    (ws ts : Fin n → Fin L → K) (amps : Fin n → K) : Fin L → K :=
  fun t => ∑ j, corrected_wavelets ws ts amps j t

/-- The match score stored at scanner.py line 2133:
`np.nansum(stack_wavelets**2) * np.sign(np.nansum(stack_wavelets))`. -/
def scan_rms {K : Type} [LinearOrderedField K] {n L : Nat}
    (ws ts : Fin n → Fin L → K) (amps : Fin n → K) : K :=
  (∑ t, (stack_wavelets ws ts amps t) ^ 2) *
    qsign (∑ t, stack_wavelets ws ts amps t)

/-- The match score as the specification's claim words it: the sum of squares
of the stack of tapered, polarity-corrected wavelets, multiplied by the sign
of the sum of that stack, each wavelet being multiplied by the sign of the
precomputed amplitude `modeledAt` looked up at its bound observation index.
Stated from the claim, to be compared with `scan_rms` from the source. -/
noncomputable def rms_claimed {n L : Nat} (modeledAt : String → String → Nat → ℝ)
    (indexes : Fin n → Nat) (types channels : Fin n → String)
    (ws ts : Fin n → Fin L → ℝ) : ℝ :=
  (∑ t, (∑ j, qsign (modeledAt (types j) (channels j) (indexes j)) * ws j t * ts j t) ^ 2)
    * qsign (∑ t, ∑ j, qsign (modeledAt (types j) (channels j) (indexes j)) * ws j t * ts j t)

/-- Arithmetic mean of a finite family (`np.mean` along the time axis). -/
noncomputable def meanF {L : Nat} (x : Fin L → ℝ) : ℝ := (∑ t, x t) / L

/-- Pearson correlation coefficient `np.corrcoef(x, y)[0, 1]` (scanner.py
line 2134): centred cross moment over the geometric mean of the centred
second moments. -/
noncomputable def pearson {L : Nat} (x y : Fin L → ℝ) : ℝ :=
  (∑ t, (x t - meanF x) * (y t - meanF y)) /
    Real.sqrt ((∑ t, (x t - meanF x) ^ 2) * (∑ t, (y t - meanF y) ^ 2))

/-- Arithmetic mean of a list (`np.nanmean`); `0/0 = 0` on the empty list. -/
noncomputable def meanL (l : List ℝ) : ℝ := l.sum / l.length

/-- Population standard deviation of a list (`np.std`). -/
noncomputable def stdL (l : List ℝ) : ℝ :=
  Real.sqrt ((l.map fun x => (x - meanL l) ^ 2).sum / l.length)

/-- Index of the first maximal element (`np.argmax`); 0 on the empty list. -/
def argmaxIdx {K : Type} [LinearOrderedField K] (l : List K) : Nat :=
  (l.enum.foldl (fun acc p => if acc.2 < p.2 then p else acc) (0, l.headD 0)).1

/-- Embedding of `SourceScan.scan(data, centroid=c)` (scanner.py lines
2096-2205) as a state transformer.  For every grid mechanism it looks up the
modeled amplitude of each wavelet at its bound observation index, wave type
and channel, computes the signed match score `scan_rms` and the correlation
with the optimal stack, zeroes the correlation of zero-score mechanisms,
derives `P(d|Mt) = rms / power_synth_stack`, the clamped `P(d)`, and
`P(Mt|d) = P(d|Mt) * P(Mt) / P(d)`, extracts the argmax best-likelihood
mechanism and the probability-weighted full-tensor centroid with threshold
`mean + c * std` of the negative-zeroed weight field (scanner.py lines
2184-2188) and NaN replacement, and marks the state scanned.  The grid
fields are only read. -/
noncomputable def scan {n L : Nat} (s : ScanState) (d : ScanData n L) (c : ℝ) :
    ScanState :=
  let amps : Mech → Fin n → ℝ := fun m j =>
    s.modeled m.Mt (d.types j) (d.channels j) (d.indexes j)
  let rmsL := s.grid.map fun m => scan_rms d.wavelets d.tapers (amps m)
  let xcorr0 := s.grid.map fun m =>
    pearson d.optStack (stack_wavelets d.wavelets d.tapers (amps m))
  let xcorrL := (rmsL.zip xcorr0).map fun p => if p.1 = 0 then 0 else p.2
  let pdMt := rmsL.map fun r => r / d.powerSynth
  let pd := P_of_d rmsL s.PMt pdMt
  let pMtd := (pdMt.zip s.PMt).map fun p => p.1 * p.2 / pd
  let best := ((s.grid.getD (argmaxIdx pMtd)
    ⟨(0, 0, 0), fun _ => 0, (0, 0, 0), (0, 0, 0)⟩).Mt, maxList pMtd)
  let negZeroed := pMtd.map fun x => if x < 0 then 0 else x
  let lim := meanL negZeroed + c * stdL negZeroed
  let centroid := (List.finRange 6).map fun k =>
    centroidComp pMtd lim (s.grid.map fun m => m.fullMt k)
  { s with rms := rmsL, xcorr := xcorrL, PdMt := pdMt, Pd := pd, PMtd := pMtd,
           best := best, centroid := centroid, scanned := true,
           boundData := some (n, L) }

/-! Helper lemmas (shared, not tied to a single claim). -/

/-- The sign of a positive value is 1. -/
theorem qsign_of_pos {K : Type} [LinearOrderedField K] {x : K} (h : 0 < x) :
    qsign x = 1 := by
  simp [qsign, h, not_lt.mpr h.le]

/-- The sign of a negative value is -1. -/
theorem qsign_of_neg {K : Type} [LinearOrderedField K] {x : K} (h : x < 0) :
    qsign x = -1 := by
  simp [qsign, h]

/-- The NaN replacement step never returns NaN. -/
theorem fixnan_ne_nan {K : Type} [LinearOrderedField K] (x : FVal K) :
    fixnan x ≠ FVal.nan := by
  cases x <;> simp [fixnan]

/-! Claim C7: `mt_angles` on a strike/dip/rake triple. -/

/-- C7: for every 3-element input `[strike, dip, rake]` with strike in
[0, 360), dip in [0, 90], rake in [-180, 180], `mt_angles` returns that same
angle triple together with DC = 100, CLVD = 0, iso = 0, deviatoric = 100
(scanner.py lines 419-424). -/
theorem mt_angles_pure_dc (s d r : ℚ) (h1 : 0 ≤ s) (h2 : s < 360)
    (h3 : 0 ≤ d) (h4 : d ≤ 90) (h5 : -180 ≤ r) (h6 : r ≤ 180) :
    mt_angles (MtInput.sdr s d r) = ((s, d, r), (some 100, some 0, 0, 100)) := rfl

/-- Witness for C7 at strike 30, dip 45, rake 10. -/
theorem mt_angles_pure_dc_witness :
    ((0 : ℚ) ≤ 30 ∧ (30 : ℚ) < 360 ∧ (0 : ℚ) ≤ 45 ∧ (45 : ℚ) ≤ 90 ∧
        (-180 : ℚ) ≤ 10 ∧ (10 : ℚ) ≤ 180) ∧
      mt_angles (MtInput.sdr (30 : ℚ) 45 10) =
        ((30, 45, 10), (some 100, some 0, 0, 100)) :=
  ⟨by norm_num,
   mt_angles_pure_dc 30 45 10 (by norm_num) (by norm_num) (by norm_num)
     (by norm_num) (by norm_num) (by norm_num)⟩

/-! Claim C6: unrecognized wave-type strings in `Vavryeuk.radpat`. -/

/-- C6 (code evaluation at the failing input): for the unrecognized
wave-type string "Love", `Vavryeuk.radpat` reaches the final `else` arm,
which only prints a message and does not raise an unsupported-option
error; execution falls through with the amplitude variable `G` unbound
(scanner.py lines 1254-1256; source.py lines 1159-1161). -/
theorem vavryeuk_unknown_wave_prints :
    vavryeuk_radpat_case "Love" = VavWaveCase.printOnly := by rfl

/-! Claim C9: `scan()` leaves the construction-time grid unchanged. -/

/-- C9: every `scan()` call preserves the mechanism grid built at
construction: the `Mt`, `fullMt`, `P-axis` and `T-axis` fields (carried by
`grid`), the prior field `P(Mt)` and the precomputed modeled-amplitude
cache are the same after `scan()` as before; `scan()` (re)writes only the
per-scan result fields, and marks the state scanned. -/
theorem scan_preserves_grid {n L : Nat} (s : ScanState) (d : ScanData n L)
    (c : ℝ) :
    (scan s d c).grid = s.grid ∧ (scan s d c).PMt = s.PMt ∧
      (scan s d c).modeled = s.modeled ∧ (scan s d c).scanned = true :=
  ⟨rfl, rfl, rfl, rfl⟩

/-! Claim C1: the stored match score. -/

/-- C1: for every bound dataset and every grid mechanism `i`, the match
score stored in `rms` by `scan()` equals the sum of squares of the stack of
tapered, polarity-corrected wavelets multiplied by the sign of the sum of
that stack, where each wavelet is first multiplied by the sign of the
precomputed amplitude at its bound observation index (scanner.py lines
2121-2133). -/
theorem scan_rms_stored {n L : Nat} (s : ScanState) (d : ScanData n L)
    (c : ℝ) (i : Fin s.grid.length) :
    (scan s d c).rms.getD i 0 =
      rms_claimed (s.modeled (s.grid.get i).Mt) d.indexes d.types d.channels
        d.wavelets d.tapers := by
  have hlen : (i : Nat) < (s.grid.map fun m =>
      scan_rms d.wavelets d.tapers fun j =>
        s.modeled m.Mt (d.types j) (d.channels j) (d.indexes j)).length := by
    simpa using i.2
  have hscan : (scan s d c).rms = s.grid.map fun m =>
      scan_rms d.wavelets d.tapers fun j =>
        s.modeled m.Mt (d.types j) (d.channels j) (d.indexes j) := rfl
  rw [hscan, List.getD_eq_get?, List.get?_eq_get hlen, Option.getD_some,
    List.get_map]
  rfl

/-! Claim C4: the stored `P(d)`. -/

/-- The source expression for the pre-clamp `P(d)` computes half the
fraction of mechanisms at-or-above the maximum absolute score. -/
theorem P_of_d_eq_amended {K : Type} [LinearOrderedField K]
    (rms pMt pdMt : List K) :
    P_of_d rms pMt pdMt = P_of_d_amended rms pMt pdMt := by
  unfold P_of_d P_of_d_amended
  rw [List.countP_eq_length_filter]
  ring_nf

/-- C4 (amended): after every `scan()` call, the stored `P(d)` equals HALF
the fraction of grid mechanisms whose absolute rms meets-or-exceeds the
maximum rms, clamped below by the minimum of `P(Mt)` over the grid and
above by the maximum of `P(d|Mt)` over the grid (scanner.py lines 2147,
2164, 2165; the `* .5` factor is what the claim's plain "fraction" misses). -/
theorem scan_P_of_d_half_fraction {n L : Nat} (s : ScanState) (d : ScanData n L)
    (c : ℝ) :
    (scan s d c).Pd = P_of_d_amended (scan s d c).rms s.PMt (scan s d c).PdMt := by
  have h : (scan s d c).Pd = P_of_d (scan s d c).rms s.PMt (scan s d c).PdMt := rfl
  rw [h, P_of_d_eq_amended]

/-- A trivial grid mechanism used by the concrete counterexample scan. -/
def mech0 : Mech :=
  { Mt := (0, 0, 0), fullMt := fun _ => 0, Paxis := (0, 0, 0), Taxis := (0, 0, 0) }

/-- A concrete 8-mechanism `SourceScan` state whose modeled amplitudes are
all 1, with the prior `P(Mt) = 2/N = 1/4` of an 8-cell grid. -/
noncomputable def state8 : ScanState :=
  { grid := List.replicate 8 mech0, PMt := List.replicate 8 (1 / 4),
    modeled := fun _ _ _ _ => 1, rms := [], xcorr := [], PdMt := [], Pd := 0,
    PMtd := [], best := ((0, 0, 0), 0), centroid := [], scanned := false,
    boundData := none }

/-- A concrete one-wavelet, one-sample dataset with unit wavelet, taper and
optimal-stack power. -/
noncomputable def data11 : ScanData 1 1 :=
  { wavelets := fun _ _ => 1, tapers := fun _ _ => 1, indexes := fun _ => 0,
    types := fun _ => "P", channels := fun _ => "L", optStack := fun _ => 0,
    powerSynth := 1 }

/-- On the concrete dataset every mechanism scores `rms = 1`. -/
theorem state8_rms : (scan state8 data11 1).rms = List.replicate 8 1 := by
  have hone : scan_rms data11.wavelets data11.tapers
      (fun j => state8.modeled mech0.Mt (data11.types j) (data11.channels j)
        (data11.indexes j)) = 1 := by
    norm_num [scan_rms, stack_wavelets, corrected_wavelets, data_amplitudes,
      state8, data11, qsign]
  have h : (scan state8 data11 1).rms = (List.replicate 8 mech0).map fun m =>
      scan_rms data11.wavelets data11.tapers fun j =>
        state8.modeled m.Mt (data11.types j) (data11.channels j) (data11.indexes j) := rfl
  simp [h, List.map_replicate, hone]

/-- On the concrete dataset `P(d|Mt)` is 1 for every mechanism. -/
theorem state8_PdMt : (scan state8 data11 1).PdMt = List.replicate 8 1 := by
  have h : (scan state8 data11 1).PdMt =
      ((scan state8 data11 1).rms).map fun r => r / data11.powerSynth := rfl
  rw [h, state8_rms]
  norm_num [data11, List.map_replicate]

/-- The concrete scan stores `P(d) = 1/2`: all 8 scores tie the maximum, and
the source computes `8 * 0.5 / 8 = 0.5`, which survives both clamps. -/
theorem state8_Pd : (scan state8 data11 1).Pd = 1 / 2 := by
  have h : (scan state8 data11 1).Pd =
      P_of_d (scan state8 data11 1).rms state8.PMt (scan state8 data11 1).PdMt := rfl
  rw [h, state8_rms, state8_PdMt]
  norm_num [P_of_d, maxList, minList, state8, List.replicate, List.countP_cons,
    List.countP_nil]

/-- The claim's plain-fraction formula evaluates to 1 on the same scan. -/
theorem state8_Pd_claimed :
    P_of_d_claimed (scan state8 data11 1).rms state8.PMt
      (scan state8 data11 1).PdMt = 1 := by
  rw [state8_rms, state8_PdMt]
  norm_num [P_of_d_claimed, maxList, minList, state8, List.replicate,
    List.filter_cons, List.filter_nil]

/-- C4 counterexample: a concrete `scan()` call (8 grid mechanisms, all
scoring `rms = 1`, prior `P(Mt) = 1/4`, `P(d|Mt) = 1`) stores `P(d) = 1/2`,
while the claim's formula — the plain fraction of mechanisms whose `|rms|`
meets-or-exceeds the maximum, clamped the same way — gives 1: the source
multiplies the count by `.5`, so the stored value is half the fraction. -/
theorem scan_P_of_d_counterexample :
    (scan state8 data11 1).Pd = 1 / 2 ∧
      P_of_d_claimed (scan state8 data11 1).rms state8.PMt
        (scan state8 data11 1).PdMt = 1 ∧ (1 / 2 : ℝ) ≠ 1 :=
  ⟨state8_Pd, state8_Pd_claimed, by norm_num⟩

/-! Claim C5: NaN replacement in the centroid. -/

/-- A list of nonnegative values summing to zero is all zeros. -/
theorem eq_zero_of_sum_eq_zero {K : Type} [LinearOrderedField K] :
    ∀ l : List K, (∀ x ∈ l, 0 ≤ x) → l.sum = 0 → ∀ x ∈ l, x = 0 := by
  intro l
  induction l with
  | nil => intro _ _ x hx; cases hx
  | cons h t ih =>
      intro hpos hsum x hx
      have hh : 0 ≤ h := hpos h (List.mem_cons_self h t)
      have ht : 0 ≤ t.sum := List.sum_nonneg fun y hy => hpos y (List.mem_cons_of_mem h hy)
      have hsum' : h + t.sum = 0 := by simpa [List.sum_cons] using hsum
      have hh0 : h = 0 := le_antisymm (by linarith) hh
      have ht0 : t.sum = 0 := by linarith
      rcases List.mem_cons.mp hx with hx1 | hx2
      · subst hx1; exact hh0
      · exact ih (fun y hy => hpos y (List.mem_cons_of_mem h hy)) ht0 x hx2

/-- The clamped centroid weights are all nonnegative. -/
theorem clampWeights_nonneg {K : Type} [LinearOrderedField K]
    (w : List K) (lim : K) : ∀ x ∈ clampWeights w lim, 0 ≤ x := by
  intro x hx
  unfold clampWeights at hx
  rcases List.mem_map.mp hx with ⟨y, hy, hxy⟩
  subst hxy
  by_cases h1 : y < lim
  · simp [h1]
  · rw [if_neg h1]
    rcases List.mem_map.mp hy with ⟨z, _, hyz⟩
    subst hyz
    by_cases h2 : z < 0
    · simp [h2]
    · rw [if_neg h2]; exact not_lt.mp h2

/-- When the clamped weights sum to zero, so does the weighted numerator,
so the raw weighted average is the NaN case `0/0`, never an infinity. -/
theorem centroidRaw_cases {K : Type} [LinearOrderedField K]
    (w : List K) (lim : K) (m : List K) :
    centroidRaw w lim m = FVal.nan ∨ ∃ q, centroidRaw w lim m = FVal.val q := by
  unfold centroidRaw fdiv
  by_cases hden : (clampWeights w lim).sum = 0
  · have hall := eq_zero_of_sum_eq_zero (clampWeights w lim)
      (clampWeights_nonneg w lim) hden
    have hnum : (((clampWeights w lim).zip m).map fun p => p.1 * p.2).sum = 0 := by
      apply List.sum_eq_zero
      intro x hx
      rcases List.mem_map.mp hx with ⟨p, hp, hpx⟩
      have hp1 : p.1 ∈ clampWeights w lim := (List.of_mem_zip hp).1
      rw [← hpx, hall p.1 hp1, zero_mul]
    left
    simp [hden, hnum]
  · right
    exact ⟨(((clampWeights w lim).zip m).map fun p => p.1 * p.2).sum /
      (clampWeights w lim).sum, by simp [hden]⟩

/-- C5: after every `scan()` call, no component of the stored centroid moment
tensor is NaN (the list `centroid` never contains the NaN value), and — in
the exact-arithmetic model of the weighted average, scanner.py lines
2190-2192 — whenever the raw zero-division average is NaN it is replaced by
the small positive epsilon `1e-11`, never by exactly zero. -/
theorem scan_centroid_never_nan :
    (∀ (w : List ℚ) (lim : ℚ) (m : List ℚ),
        centroidComp w lim m ≠ FVal.nan ∧
          (centroidRaw w lim m = FVal.nan →
            centroidComp w lim m = FVal.val (1 / 100000000000))) ∧
      (0 : ℚ) < 1 / 100000000000 ∧
      ∀ {n L : Nat} (s : ScanState) (d : ScanData n L) (c : ℝ),
        FVal.nan ∉ (scan s d c).centroid := by
  refine ⟨fun w lim m => ⟨fixnan_ne_nan _, fun h => ?_⟩, by norm_num, ?_⟩
  · rw [centroidComp, h]; rfl
  · intro n L s d c hmem
    have hc : (scan s d c).centroid = (List.finRange 6).map fun k =>
        centroidComp (scan s d c).PMtd
          (meanL ((scan s d c).PMtd.map fun x => if x < 0 then 0 else x) +
            c * stdL ((scan s d c).PMtd.map fun x => if x < 0 then 0 else x))
          (s.grid.map fun mech => mech.fullMt k) := rfl
    rw [hc] at hmem
    rcases List.mem_map.mp hmem with ⟨k, _, hk⟩
    exact fixnan_ne_nan _ hk

/-- Witness for C5: a concrete zero-weight average where the raw division is
`0/0` (NaN) and the stored component is the positive epsilon `1e-11`. -/
theorem scan_centroid_never_nan_witness :
    centroidRaw ([0] : List ℚ) 0 [1] = FVal.nan ∧
      centroidComp ([0] : List ℚ) 0 [1] = FVal.val (1 / 100000000000) :=
  have hraw : centroidRaw ([0] : List ℚ) 0 [1] = FVal.nan := by
    norm_num [centroidRaw, clampWeights, fdiv]
  ⟨hraw, (scan_centroid_never_nan.1 [0] 0 [1]).2 hraw⟩

/-! Claim C10: range of `haversine`. -/

/-- C10: for every pair of points whose latitudes lie in `[-π/2, π/2]` and
every nonnegative radius, `haversine` returns a value in `[0, π * radius]`:
the great-circle distance is never negative and never exceeds half the
sphere's circumference.  (`2 * arcsin` of a square root always lies in
`[0, π]`.) -/
theorem haversine_in_range (lon1 lat1 lon2 lat2 radius : ℝ)
    (h1 : -(Real.pi / 2) ≤ lat1) (h2 : lat1 ≤ Real.pi / 2)
    (h3 : -(Real.pi / 2) ≤ lat2) (h4 : lat2 ≤ Real.pi / 2) (hr : 0 ≤ radius) :
    0 ≤ haversine lon1 lat1 lon2 lat2 radius ∧
      haversine lon1 lat1 lon2 lat2 radius ≤ Real.pi * radius := by
  unfold haversine
  set a := Real.sin ((lat2 - lat1) / 2) ^ 2 +
    Real.cos lat1 * Real.cos lat2 * Real.sin ((lon2 - lon1) / 2) ^ 2 with ha
  have harc0 : 0 ≤ Real.arcsin (Real.sqrt a) :=
    Real.arcsin_nonneg.mpr (Real.sqrt_nonneg a)
  have harc1 : Real.arcsin (Real.sqrt a) ≤ Real.pi / 2 :=
    Real.arcsin_le_pi_div_two (Real.sqrt a)
  constructor
  · exact mul_nonneg hr (by linarith)
  · calc radius * (2 * Real.arcsin (Real.sqrt a)) ≤ radius * Real.pi := by
          apply mul_le_mul_of_nonneg_left _ hr
          linarith
      _ = Real.pi * radius := mul_comm radius Real.pi

/-- Witness for C10 at both points on the equator at longitude 0, unit
radius. -/
theorem haversine_in_range_witness :
    (-(Real.pi / 2) ≤ (0 : ℝ) ∧ (0 : ℝ) ≤ Real.pi / 2 ∧ (0 : ℝ) ≤ 1) ∧
      0 ≤ haversine 0 0 0 0 1 ∧ haversine 0 0 0 0 1 ≤ Real.pi * 1 :=
  have hp : (0 : ℝ) ≤ Real.pi / 2 := by positivity
  ⟨⟨by linarith, hp, by norm_num⟩,
   haversine_in_range 0 0 0 0 1 (by linarith) hp (by linarith) hp (by norm_num)⟩

/-! Claim C8: the epsilon guard in `project_vectors` and the zero vector. -/

/-- The spherical image of the zero vector is the zero triple: radius 0,
azimuth `atan2(0,0) = 0`, polar angle `π/2 * sign(0) = 0`. -/
theorem cartesian_to_spherical_zero :
    cartesian_to_spherical ((0, 0, 0) : Vec3 ℝ) = (0, 0, 0) := by
  unfold cartesian_to_spherical atan2
  norm_num [qsign, Complex.arg_zero]

/-- A spherical triple with zero radius maps back to the zero vector. -/
theorem spherical_to_cartesian_zero_radius (a t : ℝ) :
    spherical_to_cartesian (a, t, 0) = ((0, 0, 0) : Vec3 ℝ) := by
  unfold spherical_to_cartesian
  norm_num

/-- `vector_normal` maps the zero vector to the zero vector for every
supported component kind. -/
theorem vector_normal_zero (k : CompKind) :
    vector_normal ((0, 0, 0) : Vec3 ℝ) k = (0, 0, 0) := by
  unfold vector_normal
  rw [cartesian_to_spherical_zero]
  cases k
  · exact spherical_to_cartesian_zero_radius _ _
  · exact spherical_to_cartesian_zero_radius _ _
  · exact spherical_to_cartesian_zero_radius _ _
  · rfl

/-- Projecting anything onto the zero direction gives the zero vector
(thanks to the `1e-10` guard the division is by a positive number). -/
theorem project_vectors_zero_dir (b : Vec3 ℝ) :
    project_vectors b ((0, 0, 0) : Vec3 ℝ) = (0, 0, 0) := by
  unfold project_vectors smul3
  norm_num

/-- The squared norm of any vector is nonnegative. -/
theorem normSq_nonneg {K : Type} [LinearOrderedField K] (a : Vec3 K) :
    0 ≤ normSq a := by
  obtain ⟨a1, a2, a3⟩ := a
  unfold normSq
  positivity

/-- Cauchy-Schwarz-style bound: the squared norm of the guarded projection
never exceeds the squared norm of the projected vector. -/
theorem normSq_project_le (b a : Vec3 ℝ) :
    normSq (project_vectors b a) ≤ normSq b := by
  obtain ⟨a1, a2, a3⟩ := a
  obtain ⟨b1, b2, b3⟩ := b
  unfold project_vectors smul3 dot normSq
  have cs : (a1 * b1 + a2 * b2 + a3 * b3) ^ 2 ≤
      (a1 ^ 2 + a2 ^ 2 + a3 ^ 2) * (b1 ^ 2 + b2 ^ 2 + b3 ^ 2) := by
    nlinarith [sq_nonneg (a1 * b2 - a2 * b1), sq_nonneg (a1 * b3 - a3 * b1),
      sq_nonneg (a2 * b3 - a3 * b2)]
  have hs0 : (0 : ℝ) ≤ a1 ^ 2 + a2 ^ 2 + a3 ^ 2 := by positivity
  have hnb : (0 : ℝ) ≤ b1 ^ 2 + b2 ^ 2 + b3 ^ 2 := by positivity
  have key : (a1 * b1 + a2 * b2 + a3 * b3) ^ 2 * (a1 ^ 2 + a2 ^ 2 + a3 ^ 2) ≤
      (b1 ^ 2 + b2 ^ 2 + b3 ^ 2) *
        ((a1 ^ 2 + a2 ^ 2 + a3 ^ 2) + 1 / 10000000000) ^ 2 := by
    nlinarith [mul_le_mul_of_nonneg_right cs hs0, mul_nonneg hnb hs0]
  have hden : (0 : ℝ) < (a1 ^ 2 + a2 ^ 2 + a3 ^ 2) + 1 / 10000000000 := by
    positivity
  calc ((a1 * b1 + a2 * b2 + a3 * b3) / ((a1 ^ 2 + a2 ^ 2 + a3 ^ 2) + 1 / 10000000000)
          * a1) ^ 2 +
        ((a1 * b1 + a2 * b2 + a3 * b3) / ((a1 ^ 2 + a2 ^ 2 + a3 ^ 2) + 1 / 10000000000)
          * a2) ^ 2 +
        ((a1 * b1 + a2 * b2 + a3 * b3) / ((a1 ^ 2 + a2 ^ 2 + a3 ^ 2) + 1 / 10000000000)
          * a3) ^ 2
      = (a1 * b1 + a2 * b2 + a3 * b3) ^ 2 * (a1 ^ 2 + a2 ^ 2 + a3 ^ 2) /
          ((a1 ^ 2 + a2 ^ 2 + a3 ^ 2) + 1 / 10000000000) ^ 2 := by
        field_simp
        ring
    _ ≤ b1 ^ 2 + b2 ^ 2 + b3 ^ 2 := by
        rw [div_le_iff (by positivity)]
        linarith [key]

/-- C8: for a direction set containing the zero vector and every supported
component kind, `vector_normal` followed by `project_vectors` is total and
returns the (finite, bounded) zero vector there; in general the guard makes
the denominator `normSq a + 1e-10` strictly positive (no zero division), and
the projection squared norm is bounded by that of the projected vector. -/
theorem project_zero_guard (b a : Vec3 ℝ) (k : CompKind) :
    vector_normal ((0, 0, 0) : Vec3 ℝ) k = (0, 0, 0) ∧
      project_vectors b (vector_normal ((0, 0, 0) : Vec3 ℝ) k) = (0, 0, 0) ∧
      0 < normSq a + 1 / 10000000000 ∧
      normSq (project_vectors b a) ≤ normSq b := by
  refine ⟨vector_normal_zero k, ?_, ?_, normSq_project_le b a⟩
  · rw [vector_normal_zero k]
    exact project_vectors_zero_dir b
  · have h := normSq_nonneg a
    linarith

/-! Claim C2: sign and magnitude of the `disp_component` amplitude. -/

/-- The dot product is symmetric. -/
theorem dot_comm {K : Type} [LinearOrderedField K] (a b : Vec3 K) :
    dot a b = dot b a := by
  unfold dot; ring

/-- Orthogonal displacement projects to the zero vector. -/
theorem project_vectors_of_dot_zero (disp a : Vec3 ℝ) (h : dot disp a = 0) :
    project_vectors disp a = ((0, 0, 0) : Vec3 ℝ) := by
  unfold project_vectors smul3
  rw [dot_comm a disp, h]
  norm_num

/-- When the dot product is nonzero, the guarded projection is nonzero. -/
theorem normSq_project_pos (disp a : Vec3 ℝ) (h : dot disp a ≠ 0) :
    0 < normSq (project_vectors disp a) := by
  obtain ⟨a1, a2, a3⟩ := a
  obtain ⟨b1, b2, b3⟩ := disp
  unfold dot at h
  unfold project_vectors smul3 dot normSq
  have hden : (0 : ℝ) < a1 ^ 2 + a2 ^ 2 + a3 ^ 2 + 1 / 10000000000 := by positivity
  have hdd : a1 * b1 + a2 * b2 + a3 * b3 ≠ 0 := by
    intro h0
    exact h (by linarith [h0] )
  have hc : a1 * b1 + a2 * b2 + a3 * b3 ≠ 0 →
      (a1 * b1 + a2 * b2 + a3 * b3) / (a1 ^ 2 + a2 ^ 2 + a3 ^ 2 + 1 / 10000000000)
        ≠ 0 := fun hno => div_ne_zero hno (ne_of_gt hden)
  have hcc := hc hdd
  have hs : a1 ^ 2 + a2 ^ 2 + a3 ^ 2 ≠ 0 := by
    intro h0
    have h1 : a1 = 0 := by nlinarith [sq_nonneg a1, sq_nonneg a2, sq_nonneg a3]
    have h2 : a2 = 0 := by nlinarith [sq_nonneg a1, sq_nonneg a2, sq_nonneg a3]
    have h3 : a3 = 0 := by nlinarith [sq_nonneg a1, sq_nonneg a2, sq_nonneg a3]
    exact hdd (by rw [h1, h2, h3]; ring)
  have hspos : 0 < a1 ^ 2 + a2 ^ 2 + a3 ^ 2 :=
    lt_of_le_of_ne (by positivity) (Ne.symm hs)
  have habs : 0 < |(a1 * b1 + a2 * b2 + a3 * b3) /
      (a1 ^ 2 + a2 ^ 2 + a3 ^ 2 + 1 / 10000000000)| := abs_pos.mpr hcc
  have hexp : ((a1 * b1 + a2 * b2 + a3 * b3) /
        (a1 ^ 2 + a2 ^ 2 + a3 ^ 2 + 1 / 10000000000) * a1) ^ 2 +
      ((a1 * b1 + a2 * b2 + a3 * b3) /
        (a1 ^ 2 + a2 ^ 2 + a3 ^ 2 + 1 / 10000000000) * a2) ^ 2 +
      ((a1 * b1 + a2 * b2 + a3 * b3) /
        (a1 ^ 2 + a2 ^ 2 + a3 ^ 2 + 1 / 10000000000) * a3) ^ 2 =
      |(a1 * b1 + a2 * b2 + a3 * b3) /
        (a1 ^ 2 + a2 ^ 2 + a3 ^ 2 + 1 / 10000000000)| ^ 2 *
        (a1 ^ 2 + a2 ^ 2 + a3 ^ 2) := by
    rw [sq_abs]; ring
  rw [hexp]
  exact mul_pos (pow_pos habs 2) hspos

/-- The sign factor has unit absolute value away from its root. -/
theorem abs_qsign_of_ne {x : ℝ} (h : x ≠ 0) : |qsign x| = 1 := by
  rcases lt_or_gt_of_ne h with hlt | hgt
  · rw [qsign_of_neg hlt]; norm_num
  · rw [qsign_of_pos hgt]; norm_num

/-- C2 (amended): the `disp_component` amplitude relates to the dot product
`d` between the displacement and the chosen polarization direction through
the shifted sign `sign(d + 1e-5)` of scanner.py line 486, not through
`sign(d)` itself: the absolute amplitude equals the norm of the guarded
projection whenever `d + 1e-5 ≠ 0`; the amplitude sign is `+1` when `0 < d`,
`-1` when `d < -1e-5`; the amplitude is exactly `0` when `d = 0` (the
positive tie-break multiplies a zero projection norm); and in the whole
flipped window `-1e-5 < d < 0` the epsilon bias makes the amplitude
strictly positive (sign `+1`), opposite to the sign of `d`. -/
theorem disp_component_amp_sign (xyz disp : Vec3 ℝ) (comp : Option CompKind) :
    (dot disp (amplitude_direction xyz disp comp) + 1 / 100000 ≠ 0 →
      |disp_component_amp xyz disp comp| =
        Real.sqrt (normSq (project_vectors disp (amplitude_direction xyz disp comp)))) ∧
      (0 < dot disp (amplitude_direction xyz disp comp) →
        qsign (disp_component_amp xyz disp comp) = 1) ∧
      (dot disp (amplitude_direction xyz disp comp) + 1 / 100000 < 0 →
        qsign (disp_component_amp xyz disp comp) = -1) ∧
      (dot disp (amplitude_direction xyz disp comp) = 0 →
        disp_component_amp xyz disp comp = 0) ∧
      (-(1 / 100000) < dot disp (amplitude_direction xyz disp comp) →
        dot disp (amplitude_direction xyz disp comp) < 0 →
        0 < disp_component_amp xyz disp comp ∧
          qsign (disp_component_amp xyz disp comp) = 1) := by
  have hamp : disp_component_amp xyz disp comp =
      Real.sqrt (normSq (project_vectors disp (amplitude_direction xyz disp comp))) *
        qsign (dot disp (amplitude_direction xyz disp comp) + 1 / 100000) := rfl
  refine ⟨fun h => ?_, fun h => ?_, fun h => ?_, fun h => ?_, fun h1 h2 => ?_⟩
  · rw [hamp, abs_mul, abs_qsign_of_ne h, mul_one,
      abs_of_nonneg (Real.sqrt_nonneg _)]
  · have hd : dot disp (amplitude_direction xyz disp comp) ≠ 0 := ne_of_gt h
    have hsq : 0 < Real.sqrt
        (normSq (project_vectors disp (amplitude_direction xyz disp comp))) :=
      Real.sqrt_pos.mpr (normSq_project_pos _ _ hd)
    have hshift : 0 < dot disp (amplitude_direction xyz disp comp) + 1 / 100000 := by
      linarith
    rw [hamp, qsign_of_pos hshift, mul_one]
    exact qsign_of_pos hsq
  · have hd : dot disp (amplitude_direction xyz disp comp) ≠ 0 := by
      intro h0
      rw [h0] at h
      norm_num at h
    have hsq : 0 < Real.sqrt
        (normSq (project_vectors disp (amplitude_direction xyz disp comp))) :=
      Real.sqrt_pos.mpr (normSq_project_pos _ _ hd)
    rw [hamp, qsign_of_neg h, mul_neg, mul_one]
    exact qsign_of_neg (by linarith)
  · rw [hamp, project_vectors_of_dot_zero _ _ h]
    have hz : normSq ((0, 0, 0) : Vec3 ℝ) = 0 := by unfold normSq; norm_num
    rw [hz, Real.sqrt_zero, zero_mul]
  · have hd : dot disp (amplitude_direction xyz disp comp) ≠ 0 := ne_of_lt h2
    have hsq : 0 < Real.sqrt
        (normSq (project_vectors disp (amplitude_direction xyz disp comp))) :=
      Real.sqrt_pos.mpr (normSq_project_pos _ _ hd)
    have hshift : 0 < dot disp (amplitude_direction xyz disp comp) + 1 / 100000 := by
      linarith
    have hpos : 0 < disp_component_amp xyz disp comp := by
      rw [hamp, qsign_of_pos hshift, mul_one]
      exact hsq
    exact ⟨hpos, qsign_of_pos hpos⟩

/-- Witness for C2, exercising two branches of the amended theorem at the
radial component with observation direction `(1,0,0)`: with displacement
`(1,0,0)` the dot product is positive and the amplitude sign is `+1`; with
displacement `(-1/200000,0,0)` the dot product lies in the flipped window
`(-1e-5, 0)` and the amplitude is strictly positive. -/
theorem disp_component_amp_sign_witness :
    (0 < dot ((1 : ℝ), 0, 0)
        (amplitude_direction ((1 : ℝ), 0, 0) ((1 : ℝ), 0, 0) (some CompKind.L)) ∧
      qsign (disp_component_amp ((1 : ℝ), 0, 0) ((1 : ℝ), 0, 0)
        (some CompKind.L)) = 1) ∧
      (-(1 / 100000) < dot (-(1 / 200000 : ℝ), 0, 0)
          (amplitude_direction ((1 : ℝ), 0, 0) (-(1 / 200000 : ℝ), 0, 0)
            (some CompKind.L)) ∧
        dot (-(1 / 200000 : ℝ), 0, 0)
          (amplitude_direction ((1 : ℝ), 0, 0) (-(1 / 200000 : ℝ), 0, 0)
            (some CompKind.L)) < 0 ∧
        0 < disp_component_amp ((1 : ℝ), 0, 0) (-(1 / 200000 : ℝ), 0, 0)
          (some CompKind.L)) :=
  have h : 0 < dot ((1 : ℝ), 0, 0)
      (amplitude_direction ((1 : ℝ), 0, 0) ((1 : ℝ), 0, 0) (some CompKind.L)) := by
    norm_num [dot, amplitude_direction, vector_normal]
  have ha : amplitude_direction ((1 : ℝ), 0, 0) (-(1 / 200000 : ℝ), 0, 0)
      (some CompKind.L) = ((1 : ℝ), 0, 0) := by
    simp [amplitude_direction, vector_normal]
  have h1 : -(1 / 100000) < dot (-(1 / 200000 : ℝ), 0, 0)
      (amplitude_direction ((1 : ℝ), 0, 0) (-(1 / 200000 : ℝ), 0, 0)
        (some CompKind.L)) := by
    rw [ha]; norm_num [dot]
  have h2 : dot (-(1 / 200000 : ℝ), 0, 0)
      (amplitude_direction ((1 : ℝ), 0, 0) (-(1 / 200000 : ℝ), 0, 0)
        (some CompKind.L)) < 0 := by
    rw [ha]; norm_num [dot]
  ⟨⟨h, (disp_component_amp_sign ((1 : ℝ), 0, 0) ((1 : ℝ), 0, 0)
      (some CompKind.L)).2.1 h⟩,
   h1, h2,
   ((disp_component_amp_sign ((1 : ℝ), 0, 0) (-(1 / 200000 : ℝ), 0, 0)
      (some CompKind.L)).2.2.2.2 h1 h2).1⟩

/-- C2 counterexample: for the radial component at observation direction
`(1,0,0)` and displacement `(-1/200000, 0, 0)`, the dot product with the
polarization direction is negative (sign -1) but the amplitude returned by
`disp_component` is positive (sign +1): the `+0.00001` shift flips every
sign in the window `-1e-5 < d < 0`, so the amplitude sign does not equal
the sign of the dot product with ties broken only at exactly zero. -/
theorem disp_component_amp_sign_counterexample :
    qsign (dot (-(1 / 200000 : ℝ), 0, 0)
        (amplitude_direction ((1 : ℝ), 0, 0) (-(1 / 200000 : ℝ), 0, 0)
          (some CompKind.L))) = -1 ∧
      qsign (disp_component_amp ((1 : ℝ), 0, 0) (-(1 / 200000 : ℝ), 0, 0)
        (some CompKind.L)) = 1 := by
  have ha : amplitude_direction ((1 : ℝ), 0, 0) (-(1 / 200000 : ℝ), 0, 0)
      (some CompKind.L) = ((1 : ℝ), 0, 0) := by
    simp [amplitude_direction, vector_normal]
  constructor
  · rw [ha]
    norm_num [dot, qsign]
  · have hamp : disp_component_amp ((1 : ℝ), 0, 0) (-(1 / 200000 : ℝ), 0, 0)
        (some CompKind.L) =
        Real.sqrt (normSq (project_vectors (-(1 / 200000 : ℝ), 0, 0)
          ((1 : ℝ), 0, 0))) *
          qsign (dot (-(1 / 200000 : ℝ), 0, 0) ((1 : ℝ), 0, 0) + 1 / 100000) := by
      rw [show disp_component_amp ((1 : ℝ), 0, 0) (-(1 / 200000 : ℝ), 0, 0)
          (some CompKind.L) =
          Real.sqrt (normSq (project_vectors (-(1 / 200000 : ℝ), 0, 0)
            (amplitude_direction ((1 : ℝ), 0, 0) (-(1 / 200000 : ℝ), 0, 0)
              (some CompKind.L)))) *
            qsign (dot (-(1 / 200000 : ℝ), 0, 0)
              (amplitude_direction ((1 : ℝ), 0, 0) (-(1 / 200000 : ℝ), 0, 0)
                (some CompKind.L)) + 1 / 100000) from rfl, ha]
    have hdot : dot (-(1 / 200000 : ℝ), 0, 0) ((1 : ℝ), 0, 0) = -(1 / 200000) := by
      norm_num [dot]
    have hshift : qsign (dot (-(1 / 200000 : ℝ), 0, 0) ((1 : ℝ), 0, 0)
        + 1 / 100000) = 1 := by
      rw [hdot]
      norm_num [qsign]
    have hpos : 0 < normSq (project_vectors (-(1 / 200000 : ℝ), 0, 0)
        ((1 : ℝ), 0, 0)) := by
      apply normSq_project_pos
      rw [hdot]
      norm_num
    rw [hamp, hshift, mul_one]
    exact qsign_of_pos (Real.sqrt_pos.mpr hpos)

/-! Claim C3: the spherical/cartesian round trip. -/

/-- C3 (amended): for azimuth in the principal range `(-π, π]`, polar angle
strictly inside `(0, π)` and positive radius, `cartesian_to_spherical` after
`spherical_to_cartesian` returns the original triple exactly (hence within
any tolerance).  Azimuths outside `(-π, π]` and negative radii do not round
trip, because `arctan2` returns values in `(-π, π]` and the recovered radius
is always nonnegative. -/
theorem spherical_cartesian_roundtrip (a t r : ℝ) (ha1 : -Real.pi < a)
    (ha2 : a ≤ Real.pi) (ht1 : 0 < t) (ht2 : t < Real.pi) (hr : 0 < r) :
    cartesian_to_spherical (spherical_to_cartesian (a, t, r)) = (a, t, r) := by
  have hsint : 0 < Real.sin t := Real.sin_pos_of_pos_of_lt_pi ht1 ht2
  have hs2c : spherical_to_cartesian (a, t, r) =
      (r * Real.sin t * Real.cos a, r * Real.sin t * Real.sin a, r * Real.cos t) := rfl
  have hsq : (r * Real.sin t * Real.cos a) ^ 2 + (r * Real.sin t * Real.sin a) ^ 2 +
      (r * Real.cos t) ^ 2 = r ^ 2 := by
    linear_combination (r ^ 2 * Real.sin t ^ 2) * Real.sin_sq_add_cos_sq a +
      r ^ 2 * Real.sin_sq_add_cos_sq t
  have hrad : Real.sqrt ((r * Real.sin t * Real.cos a) ^ 2 +
      (r * Real.sin t * Real.sin a) ^ 2 + (r * Real.cos t) ^ 2) = r := by
    rw [hsq]
    exact Real.sqrt_sq hr.le
  have haz : atan2 (r * Real.sin t * Real.sin a) (r * Real.sin t * Real.cos a) = a := by
    unfold atan2
    have hxy : ((r * Real.sin t * Real.cos a : ℝ) : ℂ) +
        ((r * Real.sin t * Real.sin a : ℝ) : ℂ) * Complex.I =
        ((r * Real.sin t : ℝ) : ℂ) * (Complex.cos a + Complex.sin a * Complex.I) := by
      rw [← Complex.ofReal_cos, ← Complex.ofReal_sin]
      push_cast
      ring
    rw [hxy, Complex.arg_real_mul _ (mul_pos hr hsint)]
    exact Complex.arg_cos_add_sin_mul_I ⟨ha1, ha2⟩
  have htk : Real.arccos (r * Real.cos t / r) = t := by
    rw [mul_comm, mul_div_assoc, div_self hr.ne', mul_one]
    exact Real.arccos_cos ht1.le ht2.le
  have hc2s : cartesian_to_spherical
      (r * Real.sin t * Real.cos a, r * Real.sin t * Real.sin a, r * Real.cos t) =
      (atan2 (r * Real.sin t * Real.sin a) (r * Real.sin t * Real.cos a),
       if Real.sqrt ((r * Real.sin t * Real.cos a) ^ 2 +
           (r * Real.sin t * Real.sin a) ^ 2 + (r * Real.cos t) ^ 2) = 0 then
         Real.pi / 2 * qsign (r * Real.cos t)
       else Real.arccos (r * Real.cos t / Real.sqrt ((r * Real.sin t * Real.cos a) ^ 2 +
           (r * Real.sin t * Real.sin a) ^ 2 + (r * Real.cos t) ^ 2)),
       Real.sqrt ((r * Real.sin t * Real.cos a) ^ 2 +
           (r * Real.sin t * Real.sin a) ^ 2 + (r * Real.cos t) ^ 2)) := rfl
  rw [hs2c, hc2s, hrad, if_neg hr.ne', haz, htk]

/-- Witness for C3 at azimuth 0, polar angle π/2, radius 1. -/
theorem spherical_cartesian_roundtrip_witness :
    (-Real.pi < (0 : ℝ) ∧ (0 : ℝ) ≤ Real.pi ∧ (0 : ℝ) < Real.pi / 2 ∧
        Real.pi / 2 < Real.pi ∧ (0 : ℝ) < 1) ∧
      cartesian_to_spherical (spherical_to_cartesian (0, Real.pi / 2, 1)) =
        (0, Real.pi / 2, 1) :=
  have h1 : -Real.pi < (0 : ℝ) := by linarith [Real.pi_pos]
  have h2 : (0 : ℝ) ≤ Real.pi := Real.pi_pos.le
  have h3 : (0 : ℝ) < Real.pi / 2 := by linarith [Real.pi_pos]
  have h4 : Real.pi / 2 < Real.pi := by linarith [Real.pi_pos]
  have h5 : (0 : ℝ) < 1 := one_pos
  ⟨⟨h1, h2, h3, h4, h5⟩,
   spherical_cartesian_roundtrip 0 (Real.pi / 2) 1 h1 h2 h3 h4 h5⟩

/-- C3 counterexample: the direction with azimuth `2π`, polar angle `π/2`
(strictly inside `(0, π)`) and radius 1 (nonzero) does not round trip within
`1e-9`: the recovered azimuth is `arctan2(0, 1) = 0`, which differs from the
original azimuth by `2π`. -/
theorem spherical_cartesian_roundtrip_counterexample :
    0 < Real.pi / 2 ∧ Real.pi / 2 < Real.pi ∧ (1 : ℝ) ≠ 0 ∧
      ¬ |(cartesian_to_spherical (spherical_to_cartesian
          (2 * Real.pi, Real.pi / 2, 1))).1 - 2 * Real.pi| ≤ 1 / 1000000000 := by
  have hs2c : spherical_to_cartesian (2 * Real.pi, Real.pi / 2, 1) =
      ((1 : ℝ), 0, 0) := by
    unfold spherical_to_cartesian
    norm_num [Real.sin_pi_div_two, Real.cos_pi_div_two, Real.sin_two_pi,
      Real.cos_two_pi]
  have hfst : (cartesian_to_spherical ((1 : ℝ), 0, 0)).1 = 0 := by
    show atan2 (0 : ℝ) 1 = 0
    unfold atan2
    have h1 : ((1 : ℝ) : ℂ) + ((0 : ℝ) : ℂ) * Complex.I = 1 := by
      push_cast
      ring
    rw [h1, Complex.arg_one]
  refine ⟨by positivity, by linarith [Real.pi_pos], by norm_num, ?_⟩
  rw [hs2c, hfst]
  have habs : |(0 : ℝ) - 2 * Real.pi| = 2 * Real.pi := by
    rw [abs_sub_comm, sub_zero]
    exact abs_of_nonneg (by positivity)
  rw [habs]
  push_neg
  linarith [Real.pi_gt_three]
